import Mathlib

/-!
A shallow embedding of `github_trending_bot/bot.py` (a Telegram bot that
replies with trending GitHub repositories), together with proofs about the
claims of its specification.

Modelling conventions:
* JSON values decoded from HTTP bodies are modelled by the inductive `Json`.
* Python exceptions that can reach the code under study are modelled by the
  inductive `PyErr`.  The bot's own exception hierarchy (`Error` with
  subclasses `InvalidConfig`, `GithubApiError`, `TelegramApiError`,
  `InvalidCommand`, `ParseError`) is distinguished from the Python built-ins
  `ValueError` and `TypeError`, because `except` clauses in the source select
  on that hierarchy.
* Fallible code returns `Except PyErr _`; an `Except.error` that is never
  caught models an exception propagating out of (and crashing) the main loop.
* `item[key]` on a non-dict raises `TypeError` in Python; `_get_or_raise`
  catches only `KeyError`, so this embedding models the `TypeError` outcome
  explicitly.  Python's `isinstance(True, int)` is true, which is mirrored by
  `typeCheck`.  Diagnostic strings follow the source's f-string formats with a
  simplified `repr` (strings are quoted but not escaped).
* HTTP interaction itself is out of scope: the functions below receive the
  decoded response body as an argument and return the request payloads they
  would send, which is exactly the data the claims quantify over.
-/

/-- Decoded JSON values, as produced by `response.json()`. -/
inductive Json where
  | null : Json
  | bool (b : Bool) : Json
  | int (n : Int) : Json
  | str (s : String) : Json
  | arr (elems : List Json) : Json
  | obj (fields : List (String × Json)) : Json

/-- `str.join` from Python: `sep.join(parts)`. -/
def strJoin (sep : String) : List String → String
  | [] => ""
  | [x] => x
  | x :: y :: xs => x ++ sep ++ strJoin sep (y :: xs)

/-- First-match lookup in an association list (Python `dict` subscript on
string keys; keys of a decoded JSON object are unique, so first-match agrees
with dict semantics). -/
def assocLookup {α : Type} (kvs : List (String × α)) (key : String) : Option α :=
  match kvs with
  | [] => none
  | (k, v) :: rest => if k = key then some v else assocLookup rest key

mutual

/-- Simplified Python `repr` of a decoded JSON value (string contents are not
escaped; the claims only need that the diagnostic mentions the offending
key). -/
def Json.pyRepr : Json → String
  | .null => "None"
  | .bool true => "True"
  | .bool false => "False"
  | .int n => toString n
  | .str s => "\x27" ++ s ++ "\x27"
  | .arr xs => "[" ++ pyReprList xs ++ "]"
  | .obj kvs => "\x7b" ++ pyReprFields kvs ++ "\x7d"

def pyReprList : List Json → String
  | [] => ""
  | [x] => x.pyRepr
  | x :: y :: xs => x.pyRepr ++ ", " ++ pyReprList (y :: xs)

def pyReprFields : List (String × Json) → String
  | [] => ""
  | [(k, v)] => "\x27" ++ k ++ "\x27: " ++ v.pyRepr
  | (k, v) :: p :: rest => "\x27" ++ k ++ "\x27: " ++ v.pyRepr ++ ", " ++ pyReprFields (p :: rest)

end

/-- Python exceptions reachable in the embedded code.  The first five
constructors form the bot's own `Error` hierarchy; `valueError` and
`typeError` are Python built-ins outside it. -/
inductive PyErr where
  | invalidConfig (msg : String) : PyErr
  | githubApiError (msg : String) : PyErr
  | telegramApiError (msg : String) : PyErr
  | invalidCommand (msg : String) : PyErr
  | parseError (msg : String) : PyErr
  | valueError (msg : String) : PyErr
  | typeError (msg : String) : PyErr
deriving DecidableEq

/-- `str(exc)` for a single-argument exception: its message. -/
def PyErr.message : PyErr → String
  | .invalidConfig m => m
  | .githubApiError m => m
  | .telegramApiError m => m
  | .invalidCommand m => m
  | .parseError m => m
  | .valueError m => m
  | .typeError m => m

/-- Membership in the `InvalidCommand` branch of the hierarchy (`ParseError`
subclasses `InvalidCommand`), as selected by `except InvalidCommand`. -/
def PyErr.isInvalidCommand : PyErr → Bool
  | .invalidCommand _ => true
  | .parseError _ => true
  | _ => false

/-- Membership in the bot's base `Error` hierarchy, as selected by
`except Error` in the main loop.  `ValueError`/`TypeError` are outside it. -/
def PyErr.isBotError : PyErr → Bool
  | .invalidConfig _ => true
  | .githubApiError _ => true
  | .telegramApiError _ => true
  | .invalidCommand _ => true
  | .parseError _ => true
  | _ => false

/-- The `expected_type` arguments passed to `_get_or_raise` in the source. -/
inductive PyType where
  | int : PyType
  | str : PyType
  | strOrNone : PyType
  | list : PyType
  | dict : PyType

/-- Python `f-string` rendering of the `expected_type` argument. -/
def PyType.name : PyType → String
  | .int => "<class \x27int\x27>"
  | .str => "<class \x27str\x27>"
  | .strOrNone => "(<class \x27str\x27>, <class \x27NoneType\x27>)"
  | .list => "<class \x27list\x27>"
  | .dict => "<class \x27dict\x27>"

/-- `isinstance(value, expected_type)` on decoded JSON values.  Note that in
Python `bool` is a subclass of `int`, so a JSON boolean passes an `int`
check. -/
def typeCheck : PyType → Json → Bool
  | .int, .int _ => true
  | .int, .bool _ => true
  | .str, .str _ => true
  | .strOrNone, .str _ => true
  | .strOrNone, .null => true
  | .list, .arr _ => true
  | .dict, .obj _ => true
  | _, _ => false

/-- The `TypeError` message for subscripting a non-dict value with a string
key (the exact Python wording varies by type; only the error kind matters). -/
def notSubscriptableMsg : Json → String
  | .str _ => "string indices must be integers"
  | .arr _ => "list indices must be integers or slices, not str"
  | .null => "\x27NoneType\x27 object is not subscriptable"
  | .bool _ => "\x27bool\x27 object is not subscriptable"
  | .int _ => "\x27int\x27 object is not subscriptable"
  | .obj _ => ""

/-- Diagnostic built by `_get_or_raise` for a missing key. -/
def missesKeyMsg (item : Json) (key : String) : String :=
  item.pyRepr ++ " misses required key \x27" ++ key ++ "\x27"

/-- Diagnostic built by `_get_or_raise` for a wrongly-typed value. -/
def wrongTypeMsg (key : String) (t : PyType) (v : Json) : String :=
  "key \x27" ++ key ++ "\x27 should be " ++ t.name ++ ", got " ++ v.pyRepr ++ " instead"

/-- `_get_or_raise(item, key, expected_type, exception_class)`.

The Python body evaluates `item[key]`, converts `KeyError` into
`exception_class`, and raises `exception_class` when the `isinstance` check
fails.  Subscripting a non-dict raises `TypeError`, which is *not* caught
(only `KeyError` is), so it escapes as a built-in exception. -/
def getOrRaise (item : Json) (key : String) (t : PyType) (wrap : String → PyErr) :
    Except PyErr Json :=
  match item with
  | .obj kvs =>
    match assocLookup kvs key with
    | none => .error (wrap (missesKeyMsg item key))
    | some v =>
      if typeCheck t v then .ok v
      else .error (wrap (wrongTypeMsg key t v))
  | _ => .error (.typeError (notSubscriptableMsg item))

/-- Repository record (`Repo` class): field names and types follow the
source's annotations. -/
structure Repo where
  name : String
  description : String
  html_url : String
  language : Option String
  stargazers_count : Int
deriving DecidableEq

/-- Extract the `Option String` carried by a value that passed a
`(str, NoneType)` check. -/
def jsonOptStr : Json → Option String
  | .str s => some s
  | _ => none

/-- Extract the `String` carried by a value that passed a `str` check. -/
def jsonStr : Json → String
  | .str s => s
  | _ => ""

/-- Extract the `Int` carried by a value that passed an `int` check
(`True`/`False` are the integers 1/0 in Python). -/
def jsonToInt : Json → Int
  | .int n => n
  | .bool b => if b then 1 else 0
  | _ => 0

/-- Python `value or ''` applied to an optional string: `None` (and the empty
string) collapse to `''`. -/
def pyOrEmpty : Option String → String
  | none => ""
  | some s => s

/-- `_make_repo_from_api_item(item)`: field extraction in the source's
evaluation order (name, description, html_url, language, stargazers_count),
with `description` coerced from `None` to `''` by `or ''`. -/
def makeRepoFromApiItem (item : Json) : Except PyErr Repo :=
  match getOrRaise item "name" .str .githubApiError with
  | .error e => .error e
  | .ok nameJ =>
    match getOrRaise item "description" .strOrNone .githubApiError with
    | .error e => .error e
    | .ok descrJ =>
      match getOrRaise item "html_url" .str .githubApiError with
      | .error e => .error e
      | .ok urlJ =>
        match getOrRaise item "language" .strOrNone .githubApiError with
        | .error e => .error e
        | .ok langJ =>
          match getOrRaise item "stargazers_count" .int .githubApiError with
          | .error e => .error e
          | .ok starsJ =>
            .ok {
              name := jsonStr nameJ
              description := pyOrEmpty (jsonOptStr descrJ)
              html_url := jsonStr urlJ
              language := jsonOptStr langJ
              stargazers_count := jsonToInt starsJ
            }

/-- A Python list comprehension whose element expression may raise: elements
are produced in order and the first exception propagates. -/
def mapExcept {α β : Type} (f : α → Except PyErr β) : List α → Except PyErr (List β)
  | [] => .ok []
  | x :: xs =>
    match f x with
    | .error e => .error e
    | .ok y =>
      match mapExcept f xs with
      | .error e => .error e
      | .ok ys => .ok (y :: ys)

/-- The list carried by a value that passed a `list` check. -/
def jsonItems : Json → List Json
  | .arr xs => xs
  | _ => []

/-- The payload-processing tail of `GithubApi.find_trending_repositories`:
given the decoded response JSON, extract `items` (a list, else
`GithubApiError`) and build one `Repo` per item, in order. -/
def findTrendingParse (responseData : Json) : Except PyErr (List Repo) :=
  match getOrRaise responseData "items" .list .githubApiError with
  | .error e => .error e
  | .ok itemsJ => mapExcept makeRepoFromApiItem (jsonItems itemsJ)

/-- Chat message record (`Message` class). -/
structure Message where
  chat_id : Int
  message_id : Int
  text : String
deriving DecidableEq

/-- Poll-batch item record (`Update` class); `message` is `None` for an item
whose message body could not be parsed. -/
structure Update where
  update_id : Int
  message : Option Message
deriving DecidableEq

/-- Does a JSON object have this key (`key in item` on a verified dict)? -/
def jsonHasKey (kvs : List (String × Json)) (key : String) : Bool :=
  (assocLookup kvs key).isSome

/-- `_is_message(update_item)`: runs `_get_or_raise(update_item, 'message',
dict, ValueError)` and catches only `ValueError`; a `TypeError` (non-dict
`update_item`) propagates. -/
def isMessageItem (item : Json) : Except PyErr Bool :=
  match getOrRaise item "message" .dict .valueError with
  | .ok _ => .ok true
  | .error (.valueError _) => .ok false
  | .error e => .error e

/-- `_make_message_from_api_item(item)`: `none` when the item carries no
well-formed `message` dict; `ValueError` when the message body itself is
malformed; a message with empty text when the body has no `text` field. -/
def makeMessageFromApiItem (item : Json) : Except PyErr (Option Message) :=
  match isMessageItem item with
  | .error e => .error e
  | .ok false => .ok none
  | .ok true =>
    match getOrRaise item "message" .dict .valueError with
    | .error e => .error e
    | .ok messageItem =>
      match getOrRaise messageItem "chat" .dict .valueError with
      | .error e => .error e
      | .ok chatItem =>
        match
          (match messageItem with
           | .obj mkvs =>
             if jsonHasKey mkvs "text" then getOrRaise messageItem "text" .str .valueError
             else .ok (.str "")
           | _ => .ok (.str "")) with
        | .error e => .error e
        | .ok textJ =>
          match getOrRaise chatItem "id" .int .valueError with
          | .error e => .error e
          | .ok chatIdJ =>
            match getOrRaise messageItem "message_id" .int .valueError with
            | .error e => .error e
            | .ok messageIdJ =>
              .ok (some {
                chat_id := jsonToInt chatIdJ
                message_id := jsonToInt messageIdJ
                text := jsonStr textJ
              })

/-- `_make_update_from_api_item(item)`: requires an `int`-typed `update_id`
(else `TelegramApiError`); a `ValueError` from the message parser is logged
and replaced by `message = None`; any other exception propagates. -/
def makeUpdateFromApiItem (item : Json) : Except PyErr Update :=
  match getOrRaise item "update_id" .int .telegramApiError with
  | .error e => .error e
  | .ok uidJ =>
    match makeMessageFromApiItem item with
    | .ok m => .ok { update_id := jsonToInt uidJ, message := m }
    | .error (.valueError _) => .ok { update_id := jsonToInt uidJ, message := none }
    | .error e => .error e

/-- The payload-processing tail of `TelegramApi.get_updates`: extract
`result` (a list, else `TelegramApiError`) and build one `Update` per item,
in order. -/
def getUpdatesParse (responseData : Json) : Except PyErr (List Update) :=
  match getOrRaise responseData "result" .list .telegramApiError with
  | .error e => .error e
  | .ok resultJ => mapExcept makeUpdateFromApiItem (jsonItems resultJ)

/-- Parsed slash command (`ParsedMessage` class). -/
structure ParsedMessage where
  name : String
  args : List String
deriving DecidableEq

/-- Python `text.split(' ')` on the character list: split on every single
space, keeping empty fields (`'a  b'.split(' ') == ['a', '', 'b']`).  The
result is always non-empty. -/
def splitOnSpace : List Char → List (List Char)
  | [] => [[]]
  | c :: rest =>
    match splitOnSpace rest with
    | [] => [[]]
    | w :: ws => if c = ' ' then [] :: w :: ws else (c :: w) :: ws

/-- `parse_message_text(text)`: empty text raises a bare `ParseError`
(whose `str` is the empty string); otherwise split on single spaces, first
token is the name, the rest are the args. -/
def parseMessageText (text : String) : Except PyErr ParsedMessage :=
  if text = "" then .error (.parseError "")
  else
    let splitted := (splitOnSpace text.toList).map (fun cs => String.mk cs)
    .ok { name := splitted.headD "", args := splitted.tail }

/-- `_get_parsed_message(update)`: an update without a message maps to
`/help` with no args (dead branch in `main`, which skips such updates); a
`ParseError` is replaced by an `/echo` of the apology string. -/
def getParsedMessage (u : Update) : ParsedMessage :=
  match u.message with
  | none => { name := "/help", args := [] }
  | some m =>
    match parseMessageText m.text with
    | .ok pm => pm
    | .error _ => { name := "/echo", args := ["oops, something went wrong"] }

/-- `CommandsExecutor.execute(parsed_message)`: dict lookup of the command
name; `KeyError` becomes `InvalidCommand` naming the command; a found
handler is applied to the args and its result or exception passes through. -/
def executorExecute (commandsByName : List (String × (List String → Except PyErr String)))
    (parsedMessage : ParsedMessage) : Except PyErr String :=
  match assocLookup commandsByName parsedMessage.name with
  | none => .error (.invalidCommand ("unknown command " ++ parsedMessage.name ++ ", type `/help`"))
  | some command => command parsedMessage.args

/-- Digit run of a Python integer literal: ASCII digits with single
underscores allowed between digits (`int('1_0') == 10`, while `'_1'`, `'1_'`
and `'1__0'` all fail).  The accumulator holds the value so far; the flag
records whether the previous character was a digit. -/
def pyIntCore : List Char → Nat → Bool → Option Nat
  | [], acc, lastWasDigit => if lastWasDigit then some acc else none
  | c :: cs, acc, lastWasDigit =>
    if c.isDigit then pyIntCore cs (acc * 10 + (c.toNat - 48)) true
    else if c = '_' && lastWasDigit then pyIntCore cs acc false
    else none

/-- Strip surrounding whitespace, as `int(str)` does before parsing.
(ASCII whitespace only; the exotic Unicode spaces Python also strips are not
modelled.) -/
def pyStrip (cs : List Char) : List Char :=
  ((cs.dropWhile Char.isWhitespace).reverse.dropWhile Char.isWhitespace).reverse

/-- Python `int(s)` on a string: surrounding whitespace is stripped, an
optional sign precedes the digits, `ValueError` is modelled as `none`.
(Non-ASCII digits, which Python also accepts, are not modelled.) -/
def pyInt (s : String) : Option Int :=
  match pyStrip s.toList with
  | '+' :: cs => (pyIntCore cs 0 false).map (fun n => (n : Int))
  | '-' :: cs => (pyIntCore cs 0 false).map (fun n => -(n : Int))
  | cs => (pyIntCore cs 0 false).map (fun n => (n : Int))

/-- `GithubShowCommand._get_age_in_days_or_invalid_args(args)` with the
instance's `default_age_in_days` (7 in `main`). -/
def getAgeInDaysOrInvalidArgs (defaultAgeInDays : Int) (args : List String) : Except PyErr Int :=
  if args = [] then .ok defaultAgeInDays
  else if args.length ≠ 1 then
    .error (.invalidCommand ("this command accepts only one argument, got " ++ toString args.length))
  else
    match pyInt (args.headD "") with
    | some n => .ok n
    | none => .error (.invalidCommand (args.headD "" ++ " should be an integer"))

/-- Gregorian leap year. -/
def isLeapYear (y : Int) : Bool :=
  y % 4 = 0 && (y % 100 ≠ 0 || y % 400 = 0)

/-- Number of days in a month, used by `datetime`'s day validation. -/
def daysInMonth (y m : Int) : Int :=
  if m = 2 then (if isLeapYear y then 29 else 28)
  else if m = 4 || m = 6 || m = 9 || m = 11 then 30
  else 31

/-- Days from 1970-01-01 to the given civil date (proleptic Gregorian). -/
def daysFromCivil (y m d : Int) : Int :=
  let yAdj := if m ≤ 2 then y - 1 else y
  let era := (if 0 ≤ yAdj then yAdj else yAdj - 399) / 400
  let yoe := yAdj - era * 400
  let mp := if 2 < m then m - 3 else m + 9
  let doy := (153 * mp + 2) / 5 + d - 1
  let doe := yoe * 365 + yoe / 4 - yoe / 100 + doy
  era * 146097 + doe - 719468

/-- A run of 1 to `maxLen` ASCII digits, as matched by one `strptime`
directive. -/
def parseDigitField (s : String) (maxLen : Nat) : Option Nat :=
  let cs := s.toList
  if 1 ≤ cs.length && cs.length ≤ maxLen && cs.all Char.isDigit then
    some (cs.foldl (fun a c => a * 10 + (c.toNat - 48)) 0)
  else none

/-- `datetime.strptime(s, '%Y-%m-%dT%H:%M:%S')` followed by
`.replace(tzinfo=utc).timestamp()`: parse the six numeric fields, validate
their ranges as `datetime` does, and convert to a Unix timestamp. -/
def strptimeTimestamp (s : String) : Option Int :=
  match s.splitOn "T" with
  | [datePart, timePart] =>
    (match datePart.splitOn "-", timePart.splitOn ":" with
     | [ys, ms, ds], [hs, mins, ss] =>
       (match parseDigitField ys 4, parseDigitField ms 2, parseDigitField ds 2,
              parseDigitField hs 2, parseDigitField mins 2, parseDigitField ss 2 with
        | some y, some mo, some d, some h, some mi, some sec =>
          if 1 ≤ mo && mo ≤ 12 && 1 ≤ d && (d : Int) ≤ daysInMonth y mo
             && h ≤ 23 && mi ≤ 59 && sec ≤ 59 then
            some (daysFromCivil y mo d * 86400 + h * 3600 + mi * 60 + sec)
          else none
        | _, _, _, _, _, _ => none)
     | _, _ => none)
  | _ => none

/-- `TimestampCommand._USAGE_STRING`. -/
def timestampUsage : String := "usage: /timestamp %Y-%m-%dT%H:%M:%S"

/-- `TimestampCommand.__call__(args)`, with `datetime.utcnow()` supplied as a
Unix timestamp (already truncated to whole seconds by `int(...)`). -/
def timestampCommand (utcnowEpoch : Int) (args : List String) : Except PyErr String :=
  if 1 < args.length then
    .error (.invalidCommand ("too many arguments, " ++ timestampUsage))
  else
    match args with
    | [] => .ok (toString utcnowEpoch)
    | dateString :: _ =>
      match strptimeTimestamp dateString with
      | some ts => .ok (toString ts)
      | none => .error (.invalidCommand timestampUsage)

/-- `STAR_SYMBOL`. -/
def STAR_SYMBOL : String := "★"

/-- `html.escape(s)` (with its default `quote=True`) on one character.  The
source applies `str.replace` for `&` first and then for the other four
characters; since no replacement string contains `<`, `>`, `"` or a quote,
the chain is equivalent to this character-wise map. -/
def escapeChar (c : Char) : String :=
  if c = '&' then "&amp;"
  else if c = '<' then "&lt;"
  else if c = '>' then "&gt;"
  else if c = '"' then "&quot;"
  else if c = '\x27' then "&#x27;"
  else String.singleton c

/-- `html.escape(s)` with `quote=True`. -/
def htmlEscape (s : String) : String :=
  strJoin "" (s.toList.map escapeChar)

/-- The per-repository line built inside `format_html_message`'s loop. -/
def repoPart (repo : Repo) : String :=
  let anchor := "<a href=\"" ++ htmlEscape repo.html_url ++ "\">" ++ htmlEscape repo.name
    ++ "</a> - " ++ htmlEscape repo.description
  let languagePiece :=
    match repo.language with
    | some language => htmlEscape language ++ " "
    | none => ""
  anchor ++ " [" ++ languagePiece ++ toString repo.stargazers_count ++ STAR_SYMBOL ++ "]"

/-- `format_html_message(repositories)`: the loop collects one part per
repository in order and joins them with a blank line. -/
def formatHtmlMessage (repositories : List Repo) : String :=
  strJoin "\n\n" (repositories.map repoPart)

/-- `GithubShowCommand.__call__(args)` with the default age of 7 days, the
remote search API modelled as a function from the requested age window to the
decoded response body. -/
def githubShowCommand (github : Int → Json) (args : List String) : Except PyErr String :=
  match getAgeInDaysOrInvalidArgs 7 args with
  | .error e => .error e
  | .ok ageInDays =>
    match findTrendingParse (github ageInDays) with
    | .error e => .error e
    | .ok repositories => .ok (formatHtmlMessage repositories)

/-- `HELP_TEXT`. -/
def HELP_TEXT : String :=
  strJoin "\n\n"
    ["/show [DAYS] - show trending repositories created in the last DAYS",
     "/timestamp [%Y-%m-%dT%H:%M:%S] - convert UTC date string to Unix timestamp"]

/-- The command table built by `_get_commands_executor`, with the two
external inputs (search API response and current UTC time) as parameters. -/
def programCommands (github : Int → Json) (utcnowEpoch : Int) :
    List (String × (List String → Except PyErr String)) :=
  [("/help", fun _ => .ok HELP_TEXT),
   ("/start", fun _ => .ok HELP_TEXT),
   ("/echo", fun args => .ok (strJoin "\n" args)),
   ("/show", githubShowCommand github),
   ("/timestamp", timestampCommand utcnowEpoch)]

/-- One outbound HTTP request: method URL plus JSON payload. -/
structure HttpRequest where
  url : String
  payload : List (String × Json)

/-- `TelegramApi._get_method_url(method_name)`; for the plain method names
used by the bot, `urljoin` on the trailing-slash base is concatenation. -/
def telegramMethodUrl (token method : String) : String :=
  "https://api.telegram.org/bot" ++ token ++ "/" ++ method

/-- `TelegramApi.send_message(...)`, viewed as the list of network requests
it issues: none at all when `text` is falsy (the early `return`), otherwise a
single `sendMessage` POST whose payload carries `parse_mode` only when that
string is non-empty. -/
def sendMessageRequests (token : String) (chat_id : Int) (text : String)
    (parse_mode : String) (disable_web_page_preview disable_notification : Bool) :
    List HttpRequest :=
  if text = "" then []
  else
    let params := [("chat_id", Json.int chat_id), ("text", Json.str text),
      ("disable_web_page_preview", Json.bool disable_web_page_preview),
      ("disable_notification", Json.bool disable_notification)]
    let paramsWithMode :=
      if parse_mode = "" then params else params ++ [("parse_mode", Json.str parse_mode)]
    [{ url := telegramMethodUrl token "sendMessage", payload := paramsWithMode }]

/-- The arguments of one `telegram_api.send_message` call made by the main
loop (a `TelegramApiError` raised by the call itself is caught and logged, so
the call is recorded whether or not the network succeeds). -/
structure SendCall where
  chat_id : Int
  text : String
  parse_mode : String
  disable_web_page_preview : Bool
  disable_notification : Bool
deriving DecidableEq

/-- The fixed keyword arguments `main` passes to `send_message`. -/
def mkSendCall (chatId : Int) (text : String) : SendCall :=
  { chat_id := chatId, text := text, parse_mode := "HTML",
    disable_web_page_preview := true, disable_notification := true }

/-- The `try/except` around `commands_executor.execute` in `main`:
`InvalidCommand` (and its subclass `ParseError`) is replaced by `str(exc)`,
any other exception of the bot's `Error` hierarchy by the apology string
(after logging); an exception outside the hierarchy propagates. -/
def execCatch (exec : ParsedMessage → Except PyErr String) (pm : ParsedMessage) :
    Except PyErr String :=
  match exec pm with
  | .ok s => .ok s
  | .error e =>
    if e.isInvalidCommand then .ok e.message
    else if e.isBotError then .ok "oops, something went wrong"
    else .error e

/-- The reply text the loop shows the user when every executor error lies in
the bot's `Error` hierarchy (the specification's description of the catch
policy). -/
def replyTextFor (exec : ParsedMessage → Except PyErr String) (pm : ParsedMessage) : String :=
  match exec pm with
  | .ok s => s
  | .error e => if e.isInvalidCommand then e.message else "oops, something went wrong"

/-- One iteration of `main`'s inner `for` body: an update without a message
is skipped (logged only); otherwise the command is parsed, executed under the
`try/except`, and the reply is sent with the fixed flags. -/
def processUpdate (exec : ParsedMessage → Except PyErr String) (u : Update) :
    Except PyErr (Option SendCall) :=
  match u.message with
  | none => .ok none
  | some m =>
    match execCatch exec (getParsedMessage u) with
    | .ok text => .ok (some (mkSendCall m.chat_id text))
    | .error e => .error e

/-- The whole `for update in updates` loop: the `send_message` calls it
makes, in order; an uncaught exception aborts the loop (and `main`). -/
def runUpdates (exec : ParsedMessage → Except PyErr String) :
    List Update → Except PyErr (List SendCall)
  | [] => .ok []
  | u :: us =>
    match processUpdate exec u with
    | .error e => .error e
    | .ok s? =>
      match runUpdates exec us with
      | .error e => .error e
      | .ok rest => .ok (match s? with | none => rest | some s => s :: rest)

/-- `_get_next_offset(offset_state, bot_updates)`: the stored offset when the
batch is empty, else `max(update_id) + 1` (Python `max` folds `max` over the
generator). -/
def getNextOffset (offsetStateOffset : Int) (botUpdates : List Update) : Int :=
  match botUpdates with
  | [] => offsetStateOffset
  | u :: us => us.foldl (fun acc v => max acc v.update_id) u.update_id + 1

/-- One successful iteration of `main`'s `while` loop after `get_updates`
returned `updates`: process every update, then persist the next offset. -/
def processBatch (exec : ParsedMessage → Except PyErr String) (offset : Int)
    (updates : List Update) : Except PyErr (List SendCall × Int) :=
  match runUpdates exec updates with
  | .error e => .error e
  | .ok sends => .ok (sends, getNextOffset offset updates)

/-- Modelled from the spec (section 4.5), for comparison with
`format_html_message`: the escaping of one character for the rich-text
markup (ampersand, angle brackets, double and single quote). -/
def specEscapeChar (c : Char) : String :=
  if c = '&' then "&amp;"
  else if c = '<' then "&lt;"
  else if c = '>' then "&gt;"
  else if c = '"' then "&quot;"
  else if c = '\x27' then "&#x27;"
  else String.singleton c

/-- Spec-side escaping of a whole string. -/
def specEscape (s : String) : String :=
  strJoin "" (s.toList.map specEscapeChar)

/-- Spec-side rendering of one repository line: an anchor linking the
escaped URL with the escaped name as link text, then " - " and the escaped
description, then a bracketed suffix with the escaped language (when
present) and the star count with the star glyph. -/
def renderLine (r : Repo) : String :=
  "<a href=\"" ++ specEscape r.html_url ++ "\">" ++ specEscape r.name ++ "</a>"
    ++ " - " ++ specEscape r.description ++ " ["
    ++ (match r.language with
        | some language => specEscape language ++ " "
        | none => "")
    ++ toString r.stargazers_count ++ "\u2605]"

/-- Spec-side rendering of the whole list: one line per repository in input
order, lines joined by a blank line; the empty list renders as the empty
string. -/
def renderSpec : List Repo → String
  | [] => ""
  | [r] => renderLine r
  | r :: rs => renderLine r ++ "\n\n" ++ renderSpec rs

/-! ## Helper notions and lemmas -/

/-- A diagnostic string mentions `key` (identifies the offending key) when
`key` occurs in it as a contiguous substring. -/
def mentions (msg key : String) : Prop :=
  ∃ a b, msg = a ++ key ++ b

theorem mentions_missesKeyMsg (item : Json) (key : String) :
    mentions (missesKeyMsg item key) key :=
  ⟨item.pyRepr ++ " misses required key \x27", "\x27", rfl⟩

theorem mentions_wrongTypeMsg (key : String) (t : PyType) (v : Json) :
    mentions (wrongTypeMsg key t v) key := by
  refine ⟨"key \x27", "\x27 should be " ++ t.name ++ ", got " ++ v.pyRepr ++ " instead", ?_⟩
  simp only [wrongTypeMsg, String.append_assoc]

/-- On a JSON object, every `_get_or_raise` failure is the supplied
exception class, with a diagnostic mentioning the key. -/
theorem getOrRaise_obj_error (kvs : List (String × Json)) (key : String) (t : PyType)
    (wrap : String → PyErr) (e : PyErr)
    (h : getOrRaise (.obj kvs) key t wrap = .error e) :
    ∃ m, e = wrap m ∧ mentions m key := by
  rcases hl : assocLookup kvs key with _ | v
  · simp only [getOrRaise, hl, Except.error.injEq] at h
    exact ⟨missesKeyMsg (.obj kvs) key, h.symm, mentions_missesKeyMsg _ _⟩
  · rcases ht : typeCheck t v with _ | _
    · simp only [getOrRaise, hl, ht, Bool.false_eq_true, if_false, Except.error.injEq] at h
      exact ⟨wrongTypeMsg key t v, h.symm, mentions_wrongTypeMsg _ _ _⟩
    · simp only [getOrRaise, hl, ht, if_true] at h
      simp at h

/-- A successful `_get_or_raise` returns a value passing the type check. -/
theorem getOrRaise_ok_typeCheck (item : Json) (key : String) (t : PyType)
    (wrap : String → PyErr) (v : Json)
    (h : getOrRaise item key t wrap = .ok v) : typeCheck t v = true := by
  rcases item with _ | _ | _ | _ | _ | kvs <;> simp [getOrRaise] at h
  rcases hl : assocLookup kvs key with _ | w
  · simp only [hl] at h; simp at h
  · simp only [hl] at h
    rcases ht : typeCheck t w with _ | _ <;> simp only [ht] at h <;> simp at h
    exact h ▸ ht

/-- A successful `_get_or_raise` can only happen on a JSON object. -/
theorem getOrRaise_ok_obj (item : Json) (key : String) (t : PyType)
    (wrap : String → PyErr) (v : Json)
    (h : getOrRaise item key t wrap = .ok v) : ∃ kvs, item = .obj kvs := by
  unfold getOrRaise at h
  rcases item with _ | _ | _ | _ | _ | kvs <;> simp at h
  exact ⟨kvs, rfl⟩

theorem typeCheck_dict_obj (v : Json) (h : typeCheck .dict v = true) :
    ∃ kvs, v = .obj kvs := by
  rcases v with _ | _ | _ | _ | _ | kvs <;> simp [typeCheck] at h
  exact ⟨kvs, rfl⟩

theorem typeCheck_list_arr (v : Json) (h : typeCheck .list v = true) :
    ∃ xs, v = .arr xs := by
  rcases v with _ | _ | _ | _ | xs | _ <;> simp [typeCheck] at h
  exact ⟨xs, rfl⟩

/-- If the element function succeeds on every element, the comprehension
succeeds with one output per input, pointwise in order. -/
theorem mapExcept_ok_of_forall {α β : Type} (f : α → Except PyErr β) :
    ∀ xs : List α, (∀ x ∈ xs, ∃ y, f x = .ok y) →
      ∃ ys, mapExcept f xs = .ok ys ∧ ys.length = xs.length ∧
        ∀ i : Nat, ∀ hi : i < xs.length, ∀ hj : i < ys.length,
          f (xs.get ⟨i, hi⟩) = .ok (ys.get ⟨i, hj⟩) := by
  intro xs
  induction xs with
  | nil => intro _; exact ⟨[], rfl, rfl, fun i hi => absurd hi (Nat.not_lt_zero i)⟩
  | cons x rest ih =>
    intro h
    obtain ⟨y, hy⟩ := h x (List.mem_cons_self x rest)
    obtain ⟨ys, hys, hlen, hpt⟩ := ih (fun z hz => h z (List.mem_cons_of_mem x hz))
    refine ⟨y :: ys, ?_, by simp [hlen], ?_⟩
    · unfold mapExcept; rw [hy, hys]
    · intro i hi hj
      match i with
      | 0 => exact hy
      | Nat.succ k => exact hpt k (Nat.lt_of_succ_lt_succ hi) (Nat.lt_of_succ_lt_succ hj)

/-- A successful comprehension is pointwise: one output per input, in
order. -/
theorem mapExcept_ok_pointwise {α β : Type} (f : α → Except PyErr β) :
    ∀ xs : List α, ∀ ys : List β, mapExcept f xs = .ok ys →
      ys.length = xs.length ∧
        ∀ i : Nat, ∀ hi : i < xs.length, ∀ hj : i < ys.length,
          f (xs.get ⟨i, hi⟩) = .ok (ys.get ⟨i, hj⟩) := by
  intro xs
  induction xs with
  | nil =>
    intro ys h
    unfold mapExcept at h
    simp only [Except.ok.injEq] at h
    subst h
    exact ⟨rfl, fun i hi => absurd hi (Nat.not_lt_zero i)⟩
  | cons x rest ih =>
    intro ys h
    unfold mapExcept at h
    rcases hx : f x with e | y <;> rw [hx] at h
    · simp at h
    · rcases hr : mapExcept f rest with e | zs <;> rw [hr] at h
      · simp at h
      · simp only [Except.ok.injEq] at h
        subst h
        obtain ⟨hlen, hpt⟩ := ih zs hr
        refine ⟨by simp [hlen], ?_⟩
        intro i hi hj
        match i with
        | 0 => exact hx
        | Nat.succ k => exact hpt k (Nat.lt_of_succ_lt_succ hi) (Nat.lt_of_succ_lt_succ hj)

/-- If some element makes the element function fail, the comprehension fails,
and it propagates the error of (the first) such element. -/
theorem mapExcept_error_of_exists {α β : Type} (f : α → Except PyErr β) :
    ∀ xs : List α, (∃ x ∈ xs, ∃ e, f x = .error e) →
      ∃ x ∈ xs, ∃ e, f x = .error e ∧ mapExcept f xs = .error e := by
  intro xs
  induction xs with
  | nil => rintro ⟨x, hx, _⟩; exact absurd hx (List.not_mem_nil x)
  | cons x rest ih =>
    rintro ⟨z, hz, e, he⟩
    rcases hx : f x with e₀ | y
    · refine ⟨x, List.mem_cons_self x rest, e₀, hx, ?_⟩
      unfold mapExcept; rw [hx]
    · have hzrest : z ∈ rest := by
        rcases List.mem_cons.mp hz with h | h
        · subst h; rw [hx] at he; exact absurd he (by simp)
        · exact h
      obtain ⟨w, hw, e₁, he₁, hmap⟩ := ih ⟨z, hzrest, e, he⟩
      refine ⟨w, List.mem_cons_of_mem x hw, e₁, he₁, ?_⟩
      unfold mapExcept; rw [hx, hmap]

/-- The seed of the `max` fold is a lower bound of its result. -/
theorem le_foldlMaxUpdate (xs : List Update) :
    ∀ x : Int, x ≤ xs.foldl (fun acc v => max acc v.update_id) x := by
  induction xs with
  | nil => intro x; exact le_refl x
  | cons y ys ih =>
    intro x
    exact le_trans (le_max_left x y.update_id) (ih (max x y.update_id))

/-- Every member of the list is bounded by the `max` fold. -/
theorem mem_le_foldlMaxUpdate (xs : List Update) :
    ∀ x : Int, ∀ u ∈ xs, u.update_id ≤ xs.foldl (fun acc v => max acc v.update_id) x := by
  induction xs with
  | nil => intro x u hu; exact absurd hu (List.not_mem_nil u)
  | cons y ys ih =>
    intro x u hu
    rcases List.mem_cons.mp hu with h | h
    · subst h
      exact le_trans (le_max_right x u.update_id) (le_foldlMaxUpdate ys (max x u.update_id))
    · exact ih (max x y.update_id) u h

/-- The `max` fold returns its seed or the id of some member. -/
theorem foldlMaxUpdate_mem (xs : List Update) :
    ∀ x : Int, xs.foldl (fun acc v => max acc v.update_id) x = x ∨
      ∃ u ∈ xs, xs.foldl (fun acc v => max acc v.update_id) x = u.update_id := by
  induction xs with
  | nil => intro x; exact Or.inl rfl
  | cons y ys ih =>
    intro x
    rcases ih (max x y.update_id) with h | ⟨u, hu, h⟩
    · rcases max_choice x y.update_id with hm | hm
      · exact Or.inl (by rw [List.foldl_cons, h, hm])
      · exact Or.inr ⟨y, List.mem_cons_self y ys, by rw [List.foldl_cons, h, hm]⟩
    · exact Or.inr ⟨u, List.mem_cons_of_mem y hu, by rw [List.foldl_cons, h]⟩

/-! ## Claim C1 -/

/-- C1: for every successful main-loop iteration, the offset persisted by
`_get_next_offset` after the batch is at least the offset read before it, so
the offset state is monotonically non-decreasing across successful
iterations.  The hypothesis is the long-polling contract under which the
batch was obtained: `get_updates(offset=...)` only returns updates whose
`update_id` is at least the requested offset. -/
theorem nextOffset_nondecreasing (offset : Int) (updates : List Update)
    (h : ∀ u ∈ updates, offset ≤ u.update_id) :
    offset ≤ getNextOffset offset updates := by
  rcases updates with _ | ⟨u, us⟩
  · exact le_refl offset
  · have h1 : offset ≤ u.update_id := h u (List.mem_cons_self u us)
    have h2 : u.update_id ≤ us.foldl (fun acc v => max acc v.update_id) u.update_id :=
      le_foldlMaxUpdate us u.update_id
    have h3 : getNextOffset offset (u :: us) =
        us.foldl (fun acc v => max acc v.update_id) u.update_id + 1 := rfl
    rw [h3]
    exact le_trans (le_trans h1 h2) (Int.le_add_one (le_refl _))

/-- Witness for C1 at a concrete batch. -/
theorem nextOffset_nondecreasing_witness :
    (3 : Int) ≤ getNextOffset 3 [{ update_id := 5, message := none }] :=
  nextOffset_nondecreasing 3 [{ update_id := 5, message := none }] (by decide)

/-! ## Claim C5 -/

/-- C5: after a batch is processed, the offset passed to the setter equals
`max(update_id across the batch) + 1` when the batch is non-empty, and is
the unchanged stored offset when the batch is empty, in which case the loop
body also sends no replies. -/
theorem nextOffset_batch_spec (exec : ParsedMessage → Except PyErr String)
    (offset : Int) (updates : List Update) :
    (updates = [] → getNextOffset offset updates = offset ∧ runUpdates exec updates = .ok [])
    ∧ (updates ≠ [] → ∃ m : Int, (∃ u ∈ updates, m = u.update_id)
        ∧ (∀ u ∈ updates, u.update_id ≤ m)
        ∧ getNextOffset offset updates = m + 1) := by
  constructor
  · intro h; subst h; exact ⟨rfl, rfl⟩
  · intro h
    rcases updates with _ | ⟨u, us⟩
    · exact absurd rfl h
    · refine ⟨us.foldl (fun acc v => max acc v.update_id) u.update_id, ?_, ?_, ?_⟩
      · rcases foldlMaxUpdate_mem us u.update_id with he | ⟨v, hv, he⟩
        · exact ⟨u, List.mem_cons_self u us, he⟩
        · exact ⟨v, List.mem_cons_of_mem u hv, he⟩
      · intro v hv
        rcases List.mem_cons.mp hv with h | h
        · subst h; exact le_foldlMaxUpdate us v.update_id
        · exact mem_le_foldlMaxUpdate us u.update_id v h
      · rfl

/-- Witness for C5: empty batch leaves the offset at 9 and sends nothing;
a concrete non-empty batch advances to its maximal id plus one. -/
theorem nextOffset_batch_spec_witness :
    (getNextOffset 9 [] = 9 ∧ runUpdates (fun _ => .ok "") [] = .ok [])
    ∧ ∃ m : Int,
        (∃ u ∈ [Update.mk 4 none, Update.mk 2 none], m = u.update_id)
        ∧ (∀ u ∈ [Update.mk 4 none, Update.mk 2 none], u.update_id ≤ m)
        ∧ getNextOffset 9 [Update.mk 4 none, Update.mk 2 none] = m + 1 :=
  ⟨(nextOffset_batch_spec (fun _ => .ok "") 9 []).1 rfl,
   (nextOffset_batch_spec (fun _ => .ok "") 9 [Update.mk 4 none, Update.mk 2 none]).2
     (by decide)⟩

/-! ## Claim C3 -/

/-- On a JSON object, `_is_message` never raises: it answers `true` (and the
`message` value is a dict) or `false`. -/
theorem isMessageItem_obj (kvs : List (String × Json)) :
    (isMessageItem (.obj kvs) = .ok true
      ∧ ∃ mkvs, getOrRaise (.obj kvs) "message" .dict .valueError = .ok (.obj mkvs))
    ∨ isMessageItem (.obj kvs) = .ok false := by
  rcases hg : getOrRaise (.obj kvs) "message" .dict .valueError with e | v
  · obtain ⟨m, hm, _⟩ := getOrRaise_obj_error kvs "message" .dict .valueError e hg
    subst hm
    exact Or.inr (by simp only [isMessageItem, hg])
  · obtain ⟨mkvs, hmkvs⟩ := typeCheck_dict_obj v
      (getOrRaise_ok_typeCheck _ "message" .dict .valueError v hg)
    subst hmkvs
    exact Or.inl ⟨by simp only [isMessageItem, hg], mkvs, rfl⟩

/-- On a JSON object, `_make_message_from_api_item` can only raise
`ValueError` (which `_make_update_from_api_item` catches). -/
theorem makeMessage_obj_error (kvs : List (String × Json)) (e : PyErr)
    (h : makeMessageFromApiItem (.obj kvs) = .error e) : ∃ m, e = .valueError m := by
  rcases isMessageItem_obj kvs with ⟨htrue, mkvs, hg⟩ | hfalse
  · rcases hc : getOrRaise (.obj mkvs) "chat" .dict .valueError with e₁ | chatItem
    · obtain ⟨m, hm, _⟩ := getOrRaise_obj_error mkvs "chat" .dict .valueError e₁ hc
      simp only [makeMessageFromApiItem, htrue, hg, hc, Except.error.injEq] at h
      exact ⟨m, h ▸ hm⟩
    · obtain ⟨ckvs, hckvs⟩ := typeCheck_dict_obj chatItem
        (getOrRaise_ok_typeCheck _ "chat" .dict .valueError chatItem hc)
      subst hckvs
      rcases ht : (if jsonHasKey mkvs "text" then getOrRaise (.obj mkvs) "text" .str .valueError
          else .ok (.str "")) with e₂ | textJ
      · have he₂ : ∃ m, e₂ = .valueError m := by
          rcases hk : jsonHasKey mkvs "text" with _ | _
          · rw [hk] at ht; simp at ht
          · rw [hk] at ht; simp only [if_true] at ht
            obtain ⟨m, hm, _⟩ := getOrRaise_obj_error mkvs "text" .str .valueError e₂ ht
            exact ⟨m, hm⟩
        obtain ⟨m, hm⟩ := he₂
        simp only [makeMessageFromApiItem, htrue, hg, hc, ht, Except.error.injEq] at h
        exact ⟨m, h ▸ hm⟩
      · rcases hid : getOrRaise (.obj ckvs) "id" .int .valueError with e₃ | idJ
        · obtain ⟨m, hm, _⟩ := getOrRaise_obj_error ckvs "id" .int .valueError e₃ hid
          simp only [makeMessageFromApiItem, htrue, hg, hc, ht, hid, Except.error.injEq] at h
          exact ⟨m, h ▸ hm⟩
        · rcases hmid : getOrRaise (.obj mkvs) "message_id" .int .valueError with e₄ | midJ
          · obtain ⟨m, hm, _⟩ :=
              getOrRaise_obj_error mkvs "message_id" .int .valueError e₄ hmid
            simp only [makeMessageFromApiItem, htrue, hg, hc, ht, hid, hmid,
              Except.error.injEq] at h
            exact ⟨m, h ▸ hm⟩
          · simp only [makeMessageFromApiItem, htrue, hg, hc, ht, hid, hmid] at h
            simp at h
  · simp only [makeMessageFromApiItem, hfalse] at h
    simp at h

/-- C3: `get_updates` does not fail the whole batch because an item's message
body is malformed.  (1) If every item of the `result` list carries a
well-typed `update_id`, the whole batch parse succeeds, one `Update` per
item.  (2) Any item with a well-typed `update_id` yields an `Update`, never
an error, whatever its message body looks like.  (3) If its message body is
malformed (the message parser raises), the item yields an `Update` with no
message — it is skipped after a local diagnostic.  (4) An item whose message
body is well-formed but lacks a `text` field yields a `Message` whose text is
the empty string. -/
theorem getUpdates_item_isolation :
    (∀ (kvs : List (String × Json)) (items : List Json),
       assocLookup kvs "result" = some (.arr items) →
       (∀ it ∈ items, ∃ v, getOrRaise it "update_id" .int .telegramApiError = .ok v) →
       ∃ us, getUpdatesParse (.obj kvs) = .ok us ∧ us.length = items.length)
    ∧ (∀ (item v : Json), getOrRaise item "update_id" .int .telegramApiError = .ok v →
         ∃ msg, makeUpdateFromApiItem item = .ok { update_id := jsonToInt v, message := msg })
    ∧ (∀ (item v : Json) (e : PyErr),
         getOrRaise item "update_id" .int .telegramApiError = .ok v →
         makeMessageFromApiItem item = .error e →
         makeUpdateFromApiItem item = .ok { update_id := jsonToInt v, message := none })
    ∧ (∀ uid cid mid : Int,
         makeUpdateFromApiItem (.obj [("update_id", .int uid),
             ("message", .obj [("chat", .obj [("id", .int cid)]), ("message_id", .int mid)])])
           = .ok { update_id := uid,
                   message := some { chat_id := cid, message_id := mid, text := "" } }) := by
  have item_ok : ∀ (item v : Json),
      getOrRaise item "update_id" .int .telegramApiError = .ok v →
      ∃ msg, makeUpdateFromApiItem item = .ok { update_id := jsonToInt v, message := msg } := by
    intro item v hv
    obtain ⟨kvs, hkvs⟩ := getOrRaise_ok_obj item "update_id" .int .telegramApiError v hv
    subst hkvs
    rcases hmm : makeMessageFromApiItem (.obj kvs) with e | msg
    · obtain ⟨m, hm⟩ := makeMessage_obj_error kvs e hmm
      subst hm
      exact ⟨none, by simp only [makeUpdateFromApiItem, hv, hmm]⟩
    · exact ⟨msg, by simp only [makeUpdateFromApiItem, hv, hmm]⟩
  refine ⟨?_, item_ok, ?_, ?_⟩
  · intro kvs items hres hids
    have hget : getOrRaise (.obj kvs) "result" .list .telegramApiError = .ok (.arr items) := by
      simp only [getOrRaise, hres, typeCheck, if_true]
    obtain ⟨us, hus, hlen, _⟩ := mapExcept_ok_of_forall makeUpdateFromApiItem items
      (fun it hit => by
        obtain ⟨v, hv⟩ := hids it hit
        obtain ⟨msg, hmk⟩ := item_ok it v hv
        exact ⟨_, hmk⟩)
    exact ⟨us, by simp only [getUpdatesParse, hget, jsonItems, hus], hlen⟩
  · intro item v e hv hmm
    obtain ⟨kvs, hkvs⟩ := getOrRaise_ok_obj item "update_id" .int .telegramApiError v hv
    subst hkvs
    obtain ⟨m, hm⟩ := makeMessage_obj_error kvs e hmm
    subst hm
    simp only [makeUpdateFromApiItem, hv, hmm]
  · intro uid cid mid
    rfl

/-- Witness for C3 at concrete items: a malformed message body (a string
where a dict is required) is skipped, and a well-formed body without `text`
becomes a message whose text is the empty string. -/
theorem getUpdates_item_isolation_witness :
    makeUpdateFromApiItem (.obj [("update_id", .int 7),
        ("message", .obj [("message_id", .int 4)])])
      = .ok { update_id := 7, message := none } :=
  getUpdates_item_isolation.2.2.1
    (.obj [("update_id", .int 7), ("message", .obj [("message_id", .int 4)])])
    (.int 7) (.valueError (missesKeyMsg (.obj [("message_id", .int 4)]) "chat")) rfl rfl

/-! ## Claim C4 -/

/-- A successful `_get_or_raise` on an object returns exactly the stored
value. -/
theorem getOrRaise_obj_ok_lookup (kvs : List (String × Json)) (key : String) (t : PyType)
    (wrap : String → PyErr) (v : Json)
    (h : getOrRaise (.obj kvs) key t wrap = .ok v) : assocLookup kvs key = some v := by
  rcases hl : assocLookup kvs key with _ | w
  · simp only [getOrRaise, hl] at h; simp at h
  · rcases ht : typeCheck t w with _ | _
    · simp only [getOrRaise, hl, ht, Bool.false_eq_true, if_false] at h; simp at h
    · simp only [getOrRaise, hl, ht, if_true, Except.ok.injEq] at h
      rw [h]

/-- C4 counterexample: an `items` element that is not a JSON object makes
`find_trending_repositories` raise the built-in `TypeError` (Python
subscripting of a non-dict), not a `GithubApiError`, even though such an
element certainly lacks the required `name` field. -/
theorem findTrending_typeError_on_nonobject_item :
    findTrendingParse (.obj [("items", .arr [.int 0])])
      = .error (.typeError "\x27int\x27 object is not subscriptable") := rfl

/-- C4 (amended): on a JSON-object response, a missing `items` key or a
non-list `items` value raises `GithubApiError` with a diagnostic mentioning
`items`; a failing JSON-object item propagates its own `GithubApiError`,
whose diagnostic mentions the offending required key; an item that is not a
JSON object instead raises an uncaught `TypeError` (see the counterexample);
on success the result has one `Repo` per item, pointwise in the order
returned by the API, with no re-sorting. -/
theorem findTrending_error_classification :
    (∀ kvs : List (String × Json), assocLookup kvs "items" = none →
       ∃ msg, findTrendingParse (.obj kvs) = .error (.githubApiError msg)
         ∧ mentions msg "items")
    ∧ (∀ (kvs : List (String × Json)) (v : Json), assocLookup kvs "items" = some v →
         typeCheck .list v = false →
         ∃ msg, findTrendingParse (.obj kvs) = .error (.githubApiError msg)
           ∧ mentions msg "items")
    ∧ (∀ (kvs : List (String × Json)) (items : List Json),
         assocLookup kvs "items" = some (.arr items) →
         (∃ it ∈ items, ∃ e, makeRepoFromApiItem it = .error e) →
         ∃ it ∈ items, ∃ e, makeRepoFromApiItem it = .error e ∧
           findTrendingParse (.obj kvs) = .error e)
    ∧ (∀ (mkvs : List (String × Json)) (e : PyErr),
         makeRepoFromApiItem (.obj mkvs) = .error e →
         ∃ msg key, e = .githubApiError msg ∧ mentions msg key ∧
           (key = "name" ∨ key = "description" ∨ key = "html_url" ∨ key = "language"
             ∨ key = "stargazers_count"))
    ∧ (∀ (data : Json) (repos : List Repo), findTrendingParse data = .ok repos →
         ∃ (kvs : List (String × Json)) (items : List Json),
           data = .obj kvs ∧ assocLookup kvs "items" = some (.arr items) ∧
           repos.length = items.length ∧
           ∀ i : Nat, ∀ hi : i < items.length, ∀ hj : i < repos.length,
             makeRepoFromApiItem (items.get ⟨i, hi⟩) = .ok (repos.get ⟨i, hj⟩)) := by
  refine ⟨?_, ?_, ?_, ?_, ?_⟩
  · intro kvs hres
    refine ⟨missesKeyMsg (.obj kvs) "items", ?_, mentions_missesKeyMsg _ _⟩
    simp only [findTrendingParse, getOrRaise, hres]
  · intro kvs v hres hty
    refine ⟨wrongTypeMsg "items" .list v, ?_, mentions_wrongTypeMsg _ _ _⟩
    simp only [findTrendingParse, getOrRaise, hres, hty, Bool.false_eq_true, if_false]
  · intro kvs items hres hbad
    have hget : getOrRaise (.obj kvs) "items" .list .githubApiError = .ok (.arr items) := by
      simp only [getOrRaise, hres, typeCheck, if_true]
    obtain ⟨it, hit, e, he, hmap⟩ := mapExcept_error_of_exists makeRepoFromApiItem items hbad
    exact ⟨it, hit, e, he, by simp only [findTrendingParse, hget, jsonItems, hmap]⟩
  · intro mkvs e h
    rcases h1 : getOrRaise (.obj mkvs) "name" .str .githubApiError with e₁ | v₁
    · obtain ⟨m, hm, hmen⟩ := getOrRaise_obj_error mkvs "name" .str .githubApiError e₁ h1
      simp only [makeRepoFromApiItem, h1, Except.error.injEq] at h
      exact ⟨m, "name", h ▸ hm, hmen, Or.inl rfl⟩
    · rcases h2 : getOrRaise (.obj mkvs) "description" .strOrNone .githubApiError with e₂ | v₂
      · obtain ⟨m, hm, hmen⟩ :=
          getOrRaise_obj_error mkvs "description" .strOrNone .githubApiError e₂ h2
        simp only [makeRepoFromApiItem, h1, h2, Except.error.injEq] at h
        exact ⟨m, "description", h ▸ hm, hmen, Or.inr (Or.inl rfl)⟩
      · rcases h3 : getOrRaise (.obj mkvs) "html_url" .str .githubApiError with e₃ | v₃
        · obtain ⟨m, hm, hmen⟩ :=
            getOrRaise_obj_error mkvs "html_url" .str .githubApiError e₃ h3
          simp only [makeRepoFromApiItem, h1, h2, h3, Except.error.injEq] at h
          exact ⟨m, "html_url", h ▸ hm, hmen, Or.inr (Or.inr (Or.inl rfl))⟩
        · rcases h4 : getOrRaise (.obj mkvs) "language" .strOrNone .githubApiError with e₄ | v₄
          · obtain ⟨m, hm, hmen⟩ :=
              getOrRaise_obj_error mkvs "language" .strOrNone .githubApiError e₄ h4
            simp only [makeRepoFromApiItem, h1, h2, h3, h4, Except.error.injEq] at h
            exact ⟨m, "language", h ▸ hm, hmen, Or.inr (Or.inr (Or.inr (Or.inl rfl)))⟩
          · rcases h5 : getOrRaise (.obj mkvs) "stargazers_count" .int .githubApiError
              with e₅ | v₅
            · obtain ⟨m, hm, hmen⟩ :=
                getOrRaise_obj_error mkvs "stargazers_count" .int .githubApiError e₅ h5
              simp only [makeRepoFromApiItem, h1, h2, h3, h4, h5, Except.error.injEq] at h
              exact ⟨m, "stargazers_count", h ▸ hm, hmen,
                Or.inr (Or.inr (Or.inr (Or.inr rfl)))⟩
            · simp only [makeRepoFromApiItem, h1, h2, h3, h4, h5] at h
              simp at h
  · intro data repos h
    rcases hget : getOrRaise data "items" .list .githubApiError with e | v
    · simp only [findTrendingParse, hget] at h; simp at h
    · obtain ⟨kvs, hkvs⟩ := getOrRaise_ok_obj data "items" .list .githubApiError v hget
      subst hkvs
      obtain ⟨items, hitems⟩ := typeCheck_list_arr v
        (getOrRaise_ok_typeCheck _ "items" .list .githubApiError v hget)
      subst hitems
      have hlook := getOrRaise_obj_ok_lookup kvs "items" .list .githubApiError _ hget
      simp only [findTrendingParse, hget, jsonItems] at h
      obtain ⟨hlen, hpt⟩ := mapExcept_ok_pointwise makeRepoFromApiItem items repos h
      exact ⟨kvs, items, rfl, hlook, hlen, hpt⟩

/-- Witness for C4's amended classification at concrete responses: an empty
response object, and a response whose `items` is a number. -/
theorem findTrending_error_classification_witness :
    (∃ msg, findTrendingParse (.obj []) = .error (.githubApiError msg) ∧ mentions msg "items")
    ∧ (∃ msg, findTrendingParse (.obj [("items", .int 9)])
        = .error (.githubApiError msg) ∧ mentions msg "items") :=
  ⟨findTrending_error_classification.1 [] rfl,
   findTrending_error_classification.2.1 [("items", .int 9)] (.int 9) rfl rfl⟩

/-! ## Claim C10 -/

/-- C10: a search-API item whose `description` is present but JSON `null`
does not fail: the `or ''` coercion produces a `Repo` whose description is
the empty string (the data model types `description` as a plain string).
Stated generally for any object item that parses successfully, and
concretely for a fully well-formed item. -/
theorem makeRepo_null_description :
    (∀ (mkvs : List (String × Json)) (r : Repo),
       assocLookup mkvs "description" = some .null →
       makeRepoFromApiItem (.obj mkvs) = .ok r → r.description = "")
    ∧ (∀ (n u : String) (s : Int),
        makeRepoFromApiItem (.obj [("name", .str n), ("description", .null),
            ("html_url", .str u), ("language", .null), ("stargazers_count", .int s)])
          = .ok { name := n, description := "", html_url := u, language := none,
                  stargazers_count := s }) := by
  constructor
  · intro mkvs r hdescr h
    rcases h1 : getOrRaise (.obj mkvs) "name" .str .githubApiError with e₁ | v₁
    · simp only [makeRepoFromApiItem, h1] at h; simp at h
    · rcases h2 : getOrRaise (.obj mkvs) "description" .strOrNone .githubApiError with e₂ | v₂
      · simp only [makeRepoFromApiItem, h1, h2] at h; simp at h
      · have hv₂ : v₂ = .null := by
          have := getOrRaise_obj_ok_lookup mkvs "description" .strOrNone .githubApiError v₂ h2
          rw [hdescr] at this
          exact (Option.some.injEq _ _).mp this.symm
        subst hv₂
        rcases h3 : getOrRaise (.obj mkvs) "html_url" .str .githubApiError with e₃ | v₃
        · simp only [makeRepoFromApiItem, h1, h2, h3] at h; simp at h
        · rcases h4 : getOrRaise (.obj mkvs) "language" .strOrNone .githubApiError with e₄ | v₄
          · simp only [makeRepoFromApiItem, h1, h2, h3, h4] at h; simp at h
          · rcases h5 : getOrRaise (.obj mkvs) "stargazers_count" .int .githubApiError
              with e₅ | v₅
            · simp only [makeRepoFromApiItem, h1, h2, h3, h4, h5] at h; simp at h
            · simp only [makeRepoFromApiItem, h1, h2, h3, h4, h5, Except.ok.injEq] at h
              rw [← h]
              rfl
  · intro n u s
    rfl

/-- Witness for C10 at a concrete item with a `null` description. -/
theorem makeRepo_null_description_witness :
    Repo.description ({ name := "n", description := "", html_url := "u",
                        language := none, stargazers_count := (3 : Int) } : Repo) = "" :=
  makeRepo_null_description.1
    [("name", .str "n"), ("description", .null), ("html_url", .str "u"),
     ("language", .null), ("stargazers_count", .int 3)]
    { name := "n", description := "", html_url := "u", language := none,
      stargazers_count := 3 } rfl rfl

/-! ## Claim C2 -/

/-- When an execution error lies in the bot's `Error` hierarchy, the `try`
block around `execute` converts it into the reply text described by
`replyTextFor`. -/
theorem execCatch_ok_of_botError (exec : ParsedMessage → Except PyErr String)
    (pm : ParsedMessage) (h : ∀ e, exec pm = .error e → e.isBotError = true) :
    execCatch exec pm = .ok (replyTextFor exec pm) := by
  rcases hx : exec pm with e | s
  · have hb := h e hx
    rcases hic : e.isInvalidCommand with _ | _
    · simp only [execCatch, replyTextFor, hx, hic, Bool.false_eq_true, if_false, hb, if_true]
    · simp only [execCatch, replyTextFor, hx, hic, if_true]
  · simp only [execCatch, replyTextFor, hx]

/-- Under the same hypothesis, the per-batch loop sends exactly one reply per
message-bearing update, in order, and never aborts. -/
theorem runUpdates_ok_of_botError (exec : ParsedMessage → Except PyErr String)
    (h : ∀ pm e, exec pm = .error e → e.isBotError = true) :
    ∀ updates : List Update,
      runUpdates exec updates = .ok (updates.filterMap (fun u => u.message.map (fun m =>
        mkSendCall m.chat_id (replyTextFor exec (getParsedMessage u))))) := by
  intro updates
  induction updates with
  | nil => rfl
  | cons u us ih =>
    have hpu : processUpdate exec u = .ok (u.message.map (fun m =>
        mkSendCall m.chat_id (replyTextFor exec (getParsedMessage u)))) := by
      rcases hm : u.message with _ | m
      · simp [processUpdate, hm]
      · have hc := execCatch_ok_of_botError exec (getParsedMessage u)
          (fun e he => h (getParsedMessage u) e he)
        simp [processUpdate, hm, hc]
    rcases hm : u.message with _ | m <;>
      simp only [runUpdates, hpu, ih, hm, Option.map_none, Option.map_some,
        List.filterMap_cons, Option.map_eq_map] <;>
      simp [hm]

/-- C2 (amended): command-execution errors belonging to the bot's own
`Error` hierarchy never propagate out of the main loop: an
`InvalidCommand`-kind error is replaced by that error's fixed-format message
as the reply text, any other hierarchy error is replaced by the generic
apology string (after being logged), and processing continues with one reply
per message-bearing update; but an error outside the hierarchy — such as the
built-in `TypeError` raised when the search API returns a non-object item —
does propagate and crashes the loop (see the counterexample). -/
theorem mainLoop_replaces_hierarchy_errors (exec : ParsedMessage → Except PyErr String)
    (offset : Int) (updates : List Update)
    (hExec : ∀ pm e, exec pm = .error e → e.isBotError = true) :
    processBatch exec offset updates
      = .ok (updates.filterMap (fun u => u.message.map (fun m =>
            mkSendCall m.chat_id (replyTextFor exec (getParsedMessage u)))),
          getNextOffset offset updates)
    ∧ (∀ pm e, exec pm = .error e → e.isInvalidCommand = true →
         replyTextFor exec pm = e.message)
    ∧ (∀ pm e, exec pm = .error e → e.isInvalidCommand = false →
         replyTextFor exec pm = "oops, something went wrong") := by
  refine ⟨?_, ?_, ?_⟩
  · simp only [processBatch, runUpdates_ok_of_botError exec hExec updates]
  · intro pm e he hic
    simp only [replyTextFor, he, hic, if_true]
  · intro pm e he hic
    simp only [replyTextFor, he, hic, Bool.false_eq_true, if_false]

/-- Witness for C2's amended theorem: a batch of one message whose execution
raises `InvalidCommand` produces exactly one reply and a persisted offset. -/
theorem mainLoop_replaces_hierarchy_errors_witness :
    processBatch (fun _ => .error (.invalidCommand "bad")) 0
        [{ update_id := 1, message := some { chat_id := 2, message_id := 3, text := "/boom" } }]
      = .ok (List.filterMap
            (fun (u : Update) => u.message.map (fun m => mkSendCall m.chat_id
              (replyTextFor (fun _ => .error (.invalidCommand "bad")) (getParsedMessage u))))
            [{ update_id := 1,
               message := some { chat_id := 2, message_id := 3, text := "/boom" } }],
          getNextOffset 0
            [{ update_id := 1,
               message := some { chat_id := 2, message_id := 3, text := "/boom" } }])
    ∧ (∀ pm e, (Except.error (PyErr.invalidCommand "bad") : Except PyErr String) = .error e →
         e.isInvalidCommand = true →
         replyTextFor (fun _ => .error (.invalidCommand "bad")) pm = e.message)
    ∧ (∀ pm e, (Except.error (PyErr.invalidCommand "bad") : Except PyErr String) = .error e →
         e.isInvalidCommand = false →
         replyTextFor (fun _ => .error (.invalidCommand "bad")) pm
           = "oops, something went wrong") :=
  mainLoop_replaces_hierarchy_errors (fun _ => .error (.invalidCommand "bad")) 0
    [{ update_id := 1, message := some { chat_id := 2, message_id := 3, text := "/boom" } }]
    (by intro pm e he
        simp only [Except.error.injEq] at he
        subst he
        rfl)

/-- C2 counterexample: with the program's own command table, a batch holding
the single message `/show` crashes the loop when the search API answers
`{"items": [0]}` — the `TypeError` raised on the non-object item is caught by
neither `except InvalidCommand` nor `except Error`. -/
theorem mainLoop_crash_on_nonobject_search_item :
    processBatch
        (executorExecute (programCommands (fun _ => .obj [("items", .arr [.int 0])]) 0)) 0
        [{ update_id := 1, message := some { chat_id := 5, message_id := 6, text := "/show" } }]
      = .error (.typeError "\x27int\x27 object is not subscriptable") := rfl

/-! ## Claim C6 -/

/-- C6: for a `ParsedCommand` whose name is not in the dispatcher's mapping,
`execute` fails with the unknown-command error naming the command; for a
name in the mapping, `execute` invokes that handler on the args, so the
handler's result — its string on success, its declared error on failure —
is exactly what the caller gets. -/
theorem executor_dispatch (cmds : List (String × (List String → Except PyErr String)))
    (pm : ParsedMessage) :
    (assocLookup cmds pm.name = none →
       ∃ msg, executorExecute cmds pm = .error (.invalidCommand msg) ∧ mentions msg pm.name)
    ∧ (∀ handler, assocLookup cmds pm.name = some handler →
         executorExecute cmds pm = handler pm.args) := by
  constructor
  · intro h
    refine ⟨"unknown command " ++ pm.name ++ ", type `/help`", ?_,
      "unknown command ", ", type `/help`", rfl⟩
    simp only [executorExecute, h]
  · intro handler h
    simp only [executorExecute, h]

/-- Witness for C6 with the program's own command table: an unknown command
name is rejected with a message naming it, and `/echo` is dispatched to the
echo handler. -/
theorem executor_dispatch_witness :
    (∃ msg, executorExecute (programCommands (fun _ => .obj []) 0)
        { name := "/nope", args := [] } = .error (.invalidCommand msg)
      ∧ mentions msg "/nope")
    ∧ executorExecute (programCommands (fun _ => .obj []) 0)
        { name := "/echo", args := ["a", "b"] }
      = (fun args => .ok (strJoin "\n" args)) ["a", "b"] :=
  ⟨(executor_dispatch (programCommands (fun _ => .obj []) 0)
      { name := "/nope", args := [] }).1 rfl,
   (executor_dispatch (programCommands (fun _ => .obj []) 0)
      { name := "/echo", args := ["a", "b"] }).2 (fun args => .ok (strJoin "\n" args)) rfl⟩

/-! ## Claim C7 -/

/-- C7: the `show` handler with zero arguments queries the search API with
the default age window of 7 days; with one argument that parses as an
integer it queries with that integer; with one argument that does not parse
as an integer, or with two or more arguments, it fails with
`InvalidCommand`. -/
theorem show_command_age (github : Int → Json) :
    githubShowCommand github [] = Except.map formatHtmlMessage (findTrendingParse (github 7))
    ∧ (∀ (a : String) (n : Int), pyInt a = some n →
         githubShowCommand github [a]
           = Except.map formatHtmlMessage (findTrendingParse (github n)))
    ∧ (∀ a : String, pyInt a = none →
         githubShowCommand github [a]
           = .error (.invalidCommand (a ++ " should be an integer")))
    ∧ (∀ args : List String, 2 ≤ args.length →
         ∃ msg, githubShowCommand github args = .error (.invalidCommand msg)) := by
  refine ⟨?_, ?_, ?_, ?_⟩
  · rcases hf : findTrendingParse (github 7) with e | repos <;>
      simp [githubShowCommand, getAgeInDaysOrInvalidArgs, hf, Except.map]
  · intro a n hn
    rcases hf : findTrendingParse (github n) with e | repos <;>
      simp [githubShowCommand, getAgeInDaysOrInvalidArgs, hn, hf, Except.map]
  · intro a hn
    simp [githubShowCommand, getAgeInDaysOrInvalidArgs, hn]
  · rintro (_ | ⟨a, _ | ⟨b, rest⟩⟩) hlen
    · simp at hlen
    · simp at hlen
    · refine ⟨"this command accepts only one argument, got "
        ++ toString (a :: b :: rest).length, ?_⟩
      simp [githubShowCommand, getAgeInDaysOrInvalidArgs]

/-- Witness for C7 at concrete arguments against a stubbed search response:
`[]` uses 7 days, `["3"]` uses 3 days, `["x"]` and `["3","4"]` are
rejected. -/
theorem show_command_age_witness :
    githubShowCommand (fun _ => .obj [("items", .arr [])]) []
      = Except.map formatHtmlMessage
          (findTrendingParse ((fun _ => Json.obj [("items", .arr [])]) (7 : Int)))
    ∧ githubShowCommand (fun _ => .obj [("items", .arr [])]) ["3"]
      = Except.map formatHtmlMessage
          (findTrendingParse ((fun _ => Json.obj [("items", .arr [])]) (3 : Int)))
    ∧ githubShowCommand (fun _ => .obj [("items", .arr [])]) ["x"]
      = .error (.invalidCommand ("x" ++ " should be an integer"))
    ∧ ∃ msg, githubShowCommand (fun _ => .obj [("items", .arr [])]) ["3", "4"]
        = .error (.invalidCommand msg) :=
  ⟨(show_command_age (fun _ => .obj [("items", .arr [])])).1,
   (show_command_age (fun _ => .obj [("items", .arr [])])).2.1 "3" 3 rfl,
   (show_command_age (fun _ => .obj [("items", .arr [])])).2.2.1 "x" rfl,
   (show_command_age (fun _ => .obj [("items", .arr [])])).2.2.2 ["3", "4"] (by decide)⟩

/-! ## Claim C8 -/

/-- C8: `format_html_message` renders exactly as the specification
describes — one line per repository in input order (anchor with escaped URL
and escaped name, " - " and the escaped description, bracketed
language/star-count suffix), lines joined by a blank line — and the empty
list renders as the empty string. -/
theorem format_html_message_refines_render_spec :
    (∀ repos : List Repo, formatHtmlMessage repos = renderSpec repos)
    ∧ formatHtmlMessage [] = "" := by
  have hesc : htmlEscape = specEscape := rfl
  have hj : ∀ X : String, "</a>" ++ (" - " ++ X) = "</a> - " ++ X := fun X => by
    rw [← String.append_assoc]; exact rfl
  have hstar : ("★" : String) ++ "]" = "★]" := rfl
  have hpart : ∀ r : Repo, repoPart r = renderLine r := by
    intro r
    rcases hl : r.language with _ | language <;>
      simp only [repoPart, renderLine, hl, STAR_SYMBOL, hesc, String.append_assoc, hj, hstar]
  have hall : ∀ repos : List Repo, formatHtmlMessage repos = renderSpec repos := by
    intro repos
    induction repos with
    | nil => rfl
    | cons r rest ih =>
      rcases rest with _ | ⟨y, ys⟩
      · simp only [formatHtmlMessage, List.map_cons, List.map_nil, strJoin, renderSpec,
          hpart r]
      · simp only [formatHtmlMessage, List.map_cons, strJoin, renderSpec, hpart r]
        simp only [formatHtmlMessage, List.map_cons, strJoin] at ih
        rw [ih]
  exact ⟨hall, hall []⟩

/-! ## Claim C9 -/

/-- C9: `send_message` called with empty text returns at once and issues no
network request at all, whatever the chat id, parse mode and flags are. -/
theorem send_message_empty_text_no_request (token : String) (chat_id : Int)
    (parse_mode : String) (disable_web_page_preview disable_notification : Bool) :
    sendMessageRequests token chat_id "" parse_mode
      disable_web_page_preview disable_notification = [] := rfl
